import Mathlib

/-!
Shallow embedding of the token-bridge off-chain services (Indexer and
Relayer) and proofs settling the frozen claims about them.

The Indexer store and event processor are embedded from the indexer's
db.ts and event-processor.ts; the Relayer store, validator, signer
utilities and watcher loop from the backend's db.ts, validator.ts,
utils.ts and relayer.ts.  Database tables become lists of records;
prisma upserts/updates become the corresponding list transformations
(keys are unique, so insertion position is irrelevant).
-/

namespace TokenBridge

/-! ## Indexer data model (indexer prisma schema / db.ts) -/

/-- Event type discriminator of a BridgeEvent row. -/
inductive EventType where
  | Deposit
  | Withdraw
deriving DecidableEq, Repr

/-- One row of the indexer's BridgeEvent table.  Optional columns
(sender, sourceChainId, targetChainId) are set depending on the event
type, exactly as in createBridgeEvent's input. -/
structure BridgeEvent where
  txHash : String
  logIndex : Nat
  eventType : EventType
  chainId : Nat
  blockNumber : Nat
  blockHash : String
  timestamp : Nat
  token : String
  sender : Option String
  recipient : String
  amount : Nat
  nonce : Nat
  sourceChainId : Option Nat
  targetChainId : Option Nat
deriving DecidableEq, Repr

/-- One row of the indexer's Transfer table. -/
structure Transfer where
  depositTxHash : String
  withdrawTxHash : Option String
  sourceChainId : Nat
  targetChainId : Nat
  token : String
  sender : String
  recipient : String
  amount : Nat
  nonce : Nat
  depositBlock : Nat
  withdrawBlock : Option Nat
  depositTime : Nat
  withdrawTime : Option Nat
  status : String
deriving DecidableEq, Repr

/-- The indexer's store: the BridgeEvent and Transfer tables. -/
structure IndexerDB where
  events : List BridgeEvent
  transfers : List Transfer
deriving DecidableEq, Repr

/-- db.ts eventExists: lookup of the (txHash, logIndex) natural key. -/
def eventExists (db : IndexerDB) (txHash : String) (logIndex : Nat) : Bool :=
  db.events.any (fun e => e.txHash == txHash && e.logIndex == logIndex)

/-- db.ts createBridgeEvent: plain insert (the key is unique; position
in the list carries no meaning). -/
def createBridgeEvent (db : IndexerDB) (e : BridgeEvent) : IndexerDB :=
  { db with events := e :: db.events }

/-- db.ts getTransferByNonce: findFirst on (nonce, sourceChainId,
targetChainId). -/
def getTransferByNonce (db : IndexerDB) (nonce sourceChainId targetChainId : Nat) :
    Option Transfer :=
  db.transfers.find? (fun t =>
    t.nonce == nonce && t.sourceChainId == sourceChainId &&
      t.targetChainId == targetChainId)

/-- Lookup of the Transfer row keyed by depositTxHash (db.ts
getTransferByDepositHash). -/
def transferFor (db : IndexerDB) (depositTxHash : String) : Option Transfer :=
  db.transfers.find? (fun t => t.depositTxHash == depositTxHash)

/-- The data argument of db.ts createOrUpdateTransfer; withdraw columns
are optional exactly as in the source. -/
structure TransferData where
  depositTxHash : String
  withdrawTxHash : Option String
  sourceChainId : Nat
  targetChainId : Nat
  token : String
  sender : String
  recipient : String
  amount : Nat
  nonce : Nat
  depositBlock : Nat
  withdrawBlock : Option Nat
  depositTime : Nat
  withdrawTime : Option Nat
  status : String
deriving DecidableEq, Repr

/-- The create branch of createOrUpdateTransfer. -/
def TransferData.toTransfer (d : TransferData) : Transfer :=
  { depositTxHash := d.depositTxHash
    withdrawTxHash := d.withdrawTxHash
    sourceChainId := d.sourceChainId
    targetChainId := d.targetChainId
    token := d.token
    sender := d.sender
    recipient := d.recipient
    amount := d.amount
    nonce := d.nonce
    depositBlock := d.depositBlock
    withdrawBlock := d.withdrawBlock
    depositTime := d.depositTime
    withdrawTime := d.withdrawTime
    status := d.status }

/-- The update branch of createOrUpdateTransfer: always sets status, and
sets each withdraw column only when it was passed (JS: only when not
undefined). -/
def TransferData.applyUpdate (d : TransferData) (t : Transfer) : Transfer :=
  { t with
    status := d.status
    withdrawTxHash := match d.withdrawTxHash with
      | some v => some v
      | none => t.withdrawTxHash
    withdrawBlock := match d.withdrawBlock with
      | some v => some v
      | none => t.withdrawBlock
    withdrawTime := match d.withdrawTime with
      | some v => some v
      | none => t.withdrawTime }

/-- db.ts createOrUpdateTransfer: prisma upsert on depositTxHash. -/
def createOrUpdateTransfer (db : IndexerDB) (d : TransferData) : IndexerDB :=
  if db.transfers.any (fun t => t.depositTxHash == d.depositTxHash) then
    { db with transfers := db.transfers.map (fun t =>
        if t.depositTxHash == d.depositTxHash then d.applyUpdate t else t) }
  else
    { db with transfers := d.toTransfer :: db.transfers }

/-- db.ts updateTransferWithWithdraw: set the withdraw columns and
status completed on the row keyed by depositTxHash. -/
def updateTransferWithWithdraw (db : IndexerDB) (depositTxHash withdrawTxHash : String)
    (withdrawBlock withdrawTime : Nat) : IndexerDB :=
  { db with transfers := db.transfers.map (fun t =>
      if t.depositTxHash == depositTxHash then
        { t with
          withdrawTxHash := some withdrawTxHash
          withdrawBlock := some withdrawBlock
          withdrawTime := some withdrawTime
          status := "completed" }
      else t) }

/-! ## Indexer event processor (event-processor.ts) -/

/-- A decoded Deposit log as the indexer processor sees it (event args
plus the block data it fetches). -/
structure IDepositEv where
  txHash : String
  logIndex : Nat
  blockNumber : Nat
  blockHash : String
  timestamp : Nat
  token : String
  sender : String
  recipient : String
  amount : Nat
  nonce : Nat
  targetChainId : Nat
deriving DecidableEq, Repr

/-- A decoded Withdraw log as the indexer processor sees it. -/
structure IWithdrawEv where
  txHash : String
  logIndex : Nat
  blockNumber : Nat
  blockHash : String
  timestamp : Nat
  token : String
  recipient : String
  amount : Nat
  nonce : Nat
  sourceChainId : Nat
deriving DecidableEq, Repr

/-- The BridgeEvent row written by processDepositEvent. -/
def IDepositEv.toBridgeEvent (ev : IDepositEv) (chainId : Nat) : BridgeEvent :=
  { txHash := ev.txHash
    logIndex := ev.logIndex
    eventType := EventType.Deposit
    chainId := chainId
    blockNumber := ev.blockNumber
    blockHash := ev.blockHash
    timestamp := ev.timestamp
    token := ev.token
    sender := some ev.sender
    recipient := ev.recipient
    amount := ev.amount
    nonce := ev.nonce
    sourceChainId := none
    targetChainId := some ev.targetChainId }

/-- The Transfer upsert data written by processDepositEvent: deposit
fields only, status pending, no withdraw fields. -/
def IDepositEv.toTransferData (ev : IDepositEv) (chainId : Nat) : TransferData :=
  { depositTxHash := ev.txHash
    withdrawTxHash := none
    sourceChainId := chainId
    targetChainId := ev.targetChainId
    token := ev.token
    sender := ev.sender
    recipient := ev.recipient
    amount := ev.amount
    nonce := ev.nonce
    depositBlock := ev.blockNumber
    withdrawBlock := none
    depositTime := ev.timestamp
    withdrawTime := none
    status := "pending" }

/-- The two store writes of processDepositEvent, in program order: the
BridgeEvent insert, then the Transfer upsert.  They are separate awaits
in the source; there is no enclosing store transaction. -/
def depositWriteOps (chainId : Nat) (ev : IDepositEv) : List (IndexerDB → IndexerDB) :=
  [fun db => createBridgeEvent db (ev.toBridgeEvent chainId),
   fun db => createOrUpdateTransfer db (ev.toTransferData chainId)]

/-- Apply the first n store writes of a list (a run that crashes after
n writes). -/
def runPrefix (ops : List (IndexerDB → IndexerDB)) (n : Nat) (db : IndexerDB) : IndexerDB :=
  (ops.take n).foldl (fun acc f => f acc) db

/-- processDepositEvent, with an explicit crash point: dedup check on
(txHash, logIndex), then the first n of its two store writes. -/
def processDepositCrash (db : IndexerDB) (chainId : Nat) (ev : IDepositEv) (n : Nat) :
    IndexerDB :=
  if eventExists db ev.txHash ev.logIndex then db
  else runPrefix (depositWriteOps chainId ev) n db

/-- event-processor.ts processDepositEvent (the crash-free run: both
writes). -/
def processDepositEvent (db : IndexerDB) (chainId : Nat) (ev : IDepositEv) : IndexerDB :=
  processDepositCrash db chainId ev 2

/-- event-processor.ts findMatchingDeposit: delegates to
getTransferByNonce with the literal 0 as the targetChainId argument. -/
def findMatchingDeposit (db : IndexerDB) (nonce sourceChainId : Nat) : List Transfer :=
  match getTransferByNonce db nonce sourceChainId 0 with
  | some t => [t]
  | none => []

/-- event-processor.ts matchWithdrawWithDeposit: update every matched
transfer with the withdraw data (errors are caught and swallowed in the
source; the state transformation is as below). -/
def matchWithdrawWithDeposit (db : IndexerDB) (nonce sourceChainId : Nat)
    (withdrawTxHash : String) (withdrawBlock withdrawTime : Nat) : IndexerDB :=
  (findMatchingDeposit db nonce sourceChainId).foldl
    (fun acc t => updateTransferWithWithdraw acc t.depositTxHash withdrawTxHash
      withdrawBlock withdrawTime)
    db

/-- The BridgeEvent row written by processWithdrawEvent. -/
def IWithdrawEv.toBridgeEvent (ev : IWithdrawEv) (chainId : Nat) : BridgeEvent :=
  { txHash := ev.txHash
    logIndex := ev.logIndex
    eventType := EventType.Withdraw
    chainId := chainId
    blockNumber := ev.blockNumber
    blockHash := ev.blockHash
    timestamp := ev.timestamp
    token := ev.token
    sender := none
    recipient := ev.recipient
    amount := ev.amount
    nonce := ev.nonce
    sourceChainId := some ev.sourceChainId
    targetChainId := none }

/-- event-processor.ts processWithdrawEvent: dedup, insert the
BridgeEvent, then try to match the withdraw with its deposit. -/
def processWithdrawEvent (db : IndexerDB) (chainId : Nat) (ev : IWithdrawEv) : IndexerDB :=
  if eventExists db ev.txHash ev.logIndex then db
  else
    let db1 := createBridgeEvent db (ev.toBridgeEvent chainId)
    matchWithdrawWithDeposit db1 ev.nonce ev.sourceChainId ev.txHash
      ev.blockNumber ev.timestamp

/-! ## Relayer validator (backend validator.ts, utils.ts) -/

/-- ethers.ZeroAddress, the native-currency sentinel. -/
def zeroAddress : String := "0x0000000000000000000000000000000000000000"

/-- Decimal digit or lowercase hex letter. -/
def isLowerHexDigit (c : Char) : Bool :=
  (48 ≤ c.toNat && c.toNat ≤ 57) || (97 ≤ c.toNat && c.toNat ≤ 102)

/-- Hex digit of either case. -/
def isHexDigitChar (c : Char) : Bool :=
  (48 ≤ c.toNat && c.toNat ≤ 57) || (97 ≤ c.toNat && c.toNat ≤ 102) ||
    (65 ≤ c.toNat && c.toNat ≤ 70)

/-- utils.ts isValidAddress = ethers.isAddress.  The library accepts a
0x-prefixed 40-hex-digit string that is either all lowercase or
EIP-55 checksummed; the model covers the all-lowercase form (the
checksum branch lives in the external library and no claim depends on
it). -/
def isValidAddressModel (s : String) : Bool :=
  match s.toList with
  | '0' :: 'x' :: rest => rest.length == 40 && rest.all isLowerHexDigit
  | _ => false

/-- utils.ts isValidTxHash: the 0x + 64 hex digits shape. -/
def isValidTxHashModel (s : String) : Bool :=
  match s.toList with
  | '0' :: 'x' :: rest => rest.length == 64 && rest.all isHexDigitChar
  | _ => false

/-- A decoded Deposit log as the relayer sees it.  amount and nonce are
non-negative integers on chain; nonce and blockNumber are Nat here, so
the source's nonce < 0 and Number.isInteger rejections cannot fire. -/
structure RDepositEv where
  txHash : String
  token : String
  sender : String
  recipient : String
  amount : Nat
  nonce : Nat
  targetChainId : Nat
  blockNumber : Nat
deriving DecidableEq, Repr

/-- validator.ts validateDepositEvent. -/
def validateDepositEvent (ev : RDepositEv) : Bool :=
  (isValidAddressModel ev.token || ev.token == zeroAddress) &&
    isValidAddressModel ev.sender &&
    isValidAddressModel ev.recipient &&
    decide (0 < ev.amount) &&
    isValidTxHashModel ev.txHash &&
    decide (0 < ev.blockNumber)

/-- validator.ts hasEnoughConfirmations: currentBlock − blockNumber ≥
minConfirmations, computed over the integers as in JS. -/
def hasEnoughConfirmations (head blockNumber minConfirmations : Nat) : Bool :=
  decide ((minConfirmations : Int) ≤ (head : Int) - (blockNumber : Int))

/-- validator.ts validateWithdrawalParams. -/
def validateWithdrawalParams (token recipient : String) (amount : Nat)
    (sourceChainId targetChainId : Nat) : Bool :=
  (isValidAddressModel token || token == zeroAddress) &&
    isValidAddressModel recipient &&
    decide (0 < amount) &&
    decide (sourceChainId ≠ targetChainId)

/-! ## Relayer store (backend db.ts) -/

/-- One row of the relayer's BridgeTransaction table. -/
structure BridgeTx where
  txHash : String
  sourceChain : Nat
  targetChain : Nat
  token : String
  sender : String
  recipient : String
  amount : Nat
  nonce : Nat
  blockNumber : Nat
  status : String
  targetTxHash : Option String
  error : Option String
deriving DecidableEq, Repr

/-- The relayer's store: the BridgeTransaction table. -/
structure RelayerDB where
  txs : List BridgeTx
deriving DecidableEq, Repr

/-- Status of the row keyed by txHash, if any. -/
def statusOf (db : RelayerDB) (txHash : String) : Option String :=
  (db.txs.find? (fun t => t.txHash == txHash)).map (fun t => t.status)

/-- The row keyed by txHash, if any. -/
def txFor (db : RelayerDB) (txHash : String) : Option BridgeTx :=
  db.txs.find? (fun t => t.txHash == txHash)

/-- db.ts getOrCreateTransaction: upsert with an empty update, i.e. a
no-op when the row exists and a create with status pending otherwise. -/
def getOrCreateTransaction (db : RelayerDB) (txHash : String)
    (sourceChain targetChain : Nat) (token sender recipient : String)
    (amount nonce blockNumber : Nat) : RelayerDB :=
  if db.txs.any (fun t => t.txHash == txHash) then db
  else
    { txs :=
        { txHash := txHash
          sourceChain := sourceChain
          targetChain := targetChain
          token := token
          sender := sender
          recipient := recipient
          amount := amount
          nonce := nonce
          blockNumber := blockNumber
          status := "pending"
          targetTxHash := none
          error := none } :: db.txs }

/-- db.ts updateTransactionStatus: sets status unconditionally, and
targetTxHash only when the argument is present and truthy (a non-empty
string in JS). -/
def updateTransactionStatus (db : RelayerDB) (txHash status : String)
    (targetTxHash : Option String) : RelayerDB :=
  { txs := db.txs.map (fun t =>
      if t.txHash == txHash then
        { t with
          status := status
          targetTxHash := match targetTxHash with
            | some v => if v == "" then t.targetTxHash else some v
            | none => t.targetTxHash }
      else t) }

/-- db.ts markTransactionAsRelaying. -/
def markTransactionAsRelaying (db : RelayerDB) (txHash : String) : RelayerDB :=
  updateTransactionStatus db txHash "relaying" none

/-- db.ts markTransactionAsCompleted. -/
def markTransactionAsCompleted (db : RelayerDB) (txHash targetTxHash : String) :
    RelayerDB :=
  updateTransactionStatus db txHash "completed" (some targetTxHash)

/-- db.ts markTransactionAsFailed: sets status failed and the error
column. -/
def markTransactionAsFailed (db : RelayerDB) (txHash err : String) : RelayerDB :=
  { txs := db.txs.map (fun t =>
      if t.txHash == txHash then { t with status := "failed", error := some err }
      else t) }

/-- db.ts getLastProcessedBlock: the highest blockNumber among the
rows of the chain (findFirst ordered by blockNumber descending), with
the JS fallback value 0 when there is no row. -/
def getLastProcessedBlock (db : RelayerDB) (chainId : Nat) : Nat :=
  ((db.txs.filter (fun t => t.sourceChain == chainId)).map
    (fun t => t.blockNumber)).foldr max 0

/-! ## Relayer processor (backend relayer.ts) -/

/-- Outcomes of the relayer's target-chain interactions while
processing one deposit: whether the target chain is configured, the
on-chain isProcessed answer, the liquidity-check answer, and the result
of executeWithdrawal (the target tx hash, or none when the retried
submission ultimately throws). -/
structure TargetEnv where
  configured : Bool
  isProcessed : Bool
  hasBalance : Bool
  execResult : Option String
deriving DecidableEq, Repr

/-- The tail of relayer.ts processWithdrawal after the relaying mark:
parameter validation, isProcessed short-circuit (sentinel target tx
hash 0x0), liquidity check, then submission; every thrown error is
caught and recorded by markTransactionAsFailed. -/
def withdrawalOutcome (env : TargetEnv) (sourceChainId : Nat) (ev : RDepositEv)
    (db1 : RelayerDB) : RelayerDB :=
  if !validateWithdrawalParams ev.token ev.recipient ev.amount sourceChainId
      ev.targetChainId then
    markTransactionAsFailed db1 ev.txHash "Invalid withdrawal parameters"
  else if env.isProcessed then
    markTransactionAsCompleted db1 ev.txHash "0x0"
  else if !env.hasBalance then
    markTransactionAsFailed db1 ev.txHash "Insufficient bridge balance on target chain"
  else
    match env.execResult with
    | some h => markTransactionAsCompleted db1 ev.txHash h
    | none => markTransactionAsFailed db1 ev.txHash "withdrawal execution failed"

/-- relayer.ts processWithdrawal: return untouched when the target
chain is not configured, otherwise mark relaying and run the rest of
the pipeline. -/
def processWithdrawal (env : TargetEnv) (sourceChainId : Nat) (ev : RDepositEv)
    (db : RelayerDB) : RelayerDB :=
  if !env.configured then db
  else withdrawalOutcome env sourceChainId ev (markTransactionAsRelaying db ev.txHash)

/-- relayer.ts processDepositEvent: validate, gate on confirmations
against the current head (skipping without persisting), upsert the
BridgeTransaction, then process the withdrawal. -/
def processDepositR (env : TargetEnv) (head minConfirmations sourceChainId : Nat)
    (db : RelayerDB) (ev : RDepositEv) : RelayerDB :=
  if !validateDepositEvent ev then db
  else if !hasEnoughConfirmations head ev.blockNumber minConfirmations then db
  else
    let db1 := getOrCreateTransaction db ev.txHash sourceChainId ev.targetChainId
      ev.token ev.sender ev.recipient ev.amount ev.nonce ev.blockNumber
    processWithdrawal env sourceChainId ev db1

/-- The store states visited while processing one deposit event, in
program order (initial state first, then the state after each store
write). -/
def processDepositStatesR (env : TargetEnv) (head minConfirmations sourceChainId : Nat)
    (db : RelayerDB) (ev : RDepositEv) : List RelayerDB :=
  if !validateDepositEvent ev then [db]
  else if !hasEnoughConfirmations head ev.blockNumber minConfirmations then [db]
  else
    let db1 := getOrCreateTransaction db ev.txHash sourceChainId ev.targetChainId
      ev.token ev.sender ev.recipient ev.amount ev.nonce ev.blockNumber
    if !env.configured then [db, db1]
    else
      let db2 := markTransactionAsRelaying db1 ev.txHash
      [db, db1, db2, withdrawalOutcome env sourceChainId ev db2]

/-- relayer.ts processChainEvents: one window of the per-chain watcher
loop.  fromBlock = cursor + 1, toBlock = min(fromBlock + 1000, head);
every Deposit log of the window is dispatched in order, and the
in-memory cursor then advances to toBlock unconditionally (per-event
errors are caught and logged inside processDepositEvent).  chainLogs is
the chain's Deposit log history; the window's query returns its
in-range portion. -/
def relayerStep (envOf : RDepositEv → TargetEnv) (head minConfirmations sourceChainId : Nat)
    (db : RelayerDB) (cursor : Nat) (chainLogs : List RDepositEv) : RelayerDB × Nat :=
  let fromBlock := cursor + 1
  let toBlock := min (fromBlock + 1000) head
  if fromBlock > toBlock then (db, cursor)
  else
    let evs := chainLogs.filter (fun e =>
      decide (fromBlock ≤ e.blockNumber) && decide (e.blockNumber ≤ toBlock))
    (evs.foldl (fun acc e =>
      processDepositR (envOf e) head minConfirmations sourceChainId acc e) db,
     toBlock)

/-- relayer.ts initializeChain: the in-memory cursor starts at
getLastProcessedBlock of the store. -/
def initialCursor (db : RelayerDB) (chainId : Nat) : Nat :=
  getLastProcessedBlock db chainId

/-! ## Indexer watcher (bridge-indexer.ts processChainEvents) -/

/-- One window of the indexer watcher.  qfail models the log query
itself failing (after its retries), which propagates and aborts the
window before any dispatch; failsD / failsW model a store failure while
dispatching a single event, which processBatch catches and logs before
continuing with the remaining events, and which therefore does not
prevent the updateChainSync cursor write at the end of the window
(the failing dispatch applies none of its writes here).  All Deposit
logs of the window are dispatched before all Withdraw logs, mirroring
the two processEventType calls. -/
def indexerStep (qfail : Bool) (failsD : IDepositEv → Bool) (failsW : IWithdrawEv → Bool)
    (db : IndexerDB) (cursor head batchSize chainId : Nat)
    (dlogs : List IDepositEv) (wlogs : List IWithdrawEv) : IndexerDB × Nat :=
  let fromBlock := cursor + 1
  let toBlock := min (fromBlock + batchSize) head
  if fromBlock > toBlock then (db, cursor)
  else if qfail then (db, cursor)
  else
    let des := dlogs.filter (fun e =>
      decide (fromBlock ≤ e.blockNumber) && decide (e.blockNumber ≤ toBlock))
    let wes := wlogs.filter (fun e =>
      decide (fromBlock ≤ e.blockNumber) && decide (e.blockNumber ≤ toBlock))
    let db2 := des.foldl (fun acc e =>
      if failsD e then acc else processDepositEvent acc chainId e) db
    let db3 := wes.foldl (fun acc e =>
      if failsW e then acc else processWithdrawEvent acc chainId e) db2
    (db3, toBlock)

/-- A decoded log reduced to what the dispatch-order claim needs. -/
structure LogRec where
  blockNumber : Nat
  logIndex : Nat
  isDeposit : Bool
deriving DecidableEq, Repr

/-- Strict ascending order on (blockNumber, logIndex). -/
def logOrdered (a b : LogRec) : Prop :=
  a.blockNumber < b.blockNumber ∨
    (a.blockNumber = b.blockNumber ∧ a.logIndex < b.logIndex)

instance (a b : LogRec) : Decidable (logOrdered a b) :=
  inferInstanceAs (Decidable (a.blockNumber < b.blockNumber ∨
    (a.blockNumber = b.blockNumber ∧ a.logIndex < b.logIndex)))

/-- The order in which one indexer window hands decoded logs to the
processor: processChainEvents runs processEventType for Deposit and
then for Withdraw, so all Deposit logs of the window (in the ascending
order the RPC returns them) come before all Withdraw logs. -/
def dispatchSequence (logs : List LogRec) : List LogRec :=
  logs.filter (fun l => l.isDeposit) ++ logs.filter (fun l => !l.isDeposit)

/-! ## Gas discipline (backend utils.ts, used by executeWithdrawal) -/

/-- utils.ts estimateGasWithBuffer computes
(estimated * BigInt(Math.floor(multiplier * 100))) / 100n; the
multiplier enters as the integer Math.floor(multiplier * 100), and the
division is BigInt (floor) division. -/
def gasLimitWithBuffer (estimated multiplierPct : Nat) : Nat :=
  estimated * multiplierPct / 100

/-- Math.floor(1.2 * 100) for the default gasLimitMultiplier 1.2 (the
binary64 product 1.2 * 100 is exactly 120). -/
def defaultMultiplierPct : Nat := 120

/-- ethers.parseUnits(maxGasPriceGwei, gwei): the cap in wei. -/
def maxGasPriceWei (maxGasPriceGwei : Nat) : Nat :=
  maxGasPriceGwei * 1000000000

/-- utils.ts getGasPrice: feeData.gasPrice (JS fallback 0 when null),
lowered to the cap when it exceeds it. -/
def getGasPriceModel (feeGasPrice : Option Nat) (maxGasPriceGwei : Nat) : Nat :=
  let g := feeGasPrice.getD 0
  if g > maxGasPriceWei maxGasPriceGwei then maxGasPriceWei maxGasPriceGwei else g

/-- The (gasLimit, gasPrice) overrides relayer.ts executeWithdrawal
passes to contract.withdraw, with the default multiplier. -/
def executeWithdrawalGasFields (estimated : Nat) (feeGasPrice : Option Nat)
    (maxGasPriceGwei : Nat) : Nat × Nat :=
  (gasLimitWithBuffer estimated defaultMultiplierPct,
   getGasPriceModel feeGasPrice maxGasPriceGwei)

/-! ## Signer and message encoding (backend signer.ts, utils.ts; spec 4.3)

The repo computes the digest with ethers.solidityPackedKeccak256 and
signs it with the wallet key; keccak256 and the secp256k1 primitives
live in the ethers library, outside this repository, so they are
modelled from the spec below.  The packed encoding (field widths and
order) is embedded from utils.ts encodeWithdrawMessage. -/

/-- Big-endian byte encoding of a number in w bytes (solidity packed
encoding of address(20) and uint256(32) operands). -/
def beBytes (w n : Nat) : List Nat :=
  (List.range w).map (fun i => n / 256 ^ (w - 1 - i) % 256)

/-- utils.ts encodeWithdrawMessage operand list: the packed bytes of
(address token, address recipient, uint256 amount, uint256 nonce,
uint256 sourceChainId, uint256 targetChainId), in that order. -/
def encodeWithdrawMessagePacked (token recipient amount nonce sourceChainId
    targetChainId : Nat) : List Nat :=
  beBytes 20 token ++ beBytes 20 recipient ++ beBytes 32 amount ++
    beBytes 32 nonce ++ beBytes 32 sourceChainId ++ beBytes 32 targetChainId

/-- The EIP-191 prefix bytes that wallet.signMessage and
ethers.verifyMessage both prepend to the 32-byte inner hash. -/
def ethSignedPrefixBytes : List Nat :=
  25 :: ("Ethereum Signed Message:\n32".toList.map Char.toNat)

/-- Order of the secp256k1 group (prime). -/
def secpGroupOrder : Nat :=
  115792089237316195423570985008687907852837564279074904382605163141518161494337

/-- Scalars modulo the secp256k1 group order.  The curve group is
cyclic of this order, so curve points are identified with their
discrete logarithm to the base point G; the public key of private key
d is the scalar d itself. -/
abbrev SecpScalar := ZMod secpGroupOrder

/-- Modelled from the spec: the digest actually signed, as a scalar -
keccak256 of the EIP-191-prefixed inner hash, where the inner hash is
keccak256 of the packed withdrawal message.  keccak256 (external to the
repo) is a parameter; both claims below hold for every choice of it. -/
def withdrawDigest (keccak : List Nat → Nat) (token recipient amount nonce
    sourceChainId targetChainId : Nat) : SecpScalar :=
  ((keccak (ethSignedPrefixBytes ++ beBytes 32 (keccak
    (encodeWithdrawMessagePacked token recipient amount nonce sourceChainId
      targetChainId)))) : Nat)

/-- Modelled from the spec: secp256k1_sign at the cyclic-group level.
The nonce point is k (as a scalar, i.e. k.G); xc is the x-coordinate
map of the curve bundled with the recovery-id normalization (r = x(kG)
mod n, with v in {27, 28} recording which of the candidate points r
denotes); kInv is the modular inverse of k the signer computes.  The
signature is (r, s) with s = kInv * (z + r * d). -/
def ecdsaSign (xc : SecpScalar → SecpScalar) (d k kInv z : SecpScalar) :
    SecpScalar × SecpScalar :=
  (xc k, kInv * (z + xc k * d))

/-- Modelled from the spec: ecrecover at the cyclic-group level.  dec
inverts the x-coordinate-with-recovery-id encoding back to the nonce
point (this is what the normalized v makes possible); rInv is the
modular inverse of r; the recovered public key is rInv * (s * R - z)
scalar, i.e. the point r^-1 * (s.R - z.G). -/
def ecrecoverScalar (dec : SecpScalar → SecpScalar) (rInv z r s : SecpScalar) :
    SecpScalar :=
  rInv * (s * dec r - z)

/-- Modelled from the spec: signature verification as
signer.ts verifySignature performs it - recover the signer and compare
addresses, where addrOf is the public-key-to-address map (keccak and
truncation, external to the repo). -/
def verifyRecovered (addrOf dec : SecpScalar → SecpScalar) (rInv z r s : SecpScalar)
    (expected : SecpScalar) : Bool :=
  addrOf (ecrecoverScalar dec rInv z r s) == expected

/-- signer.ts signWithdrawal: compute the canonical digest of the
tuple, then sign it. -/
def signWithdrawalModel (keccak : List Nat → Nat) (xc : SecpScalar → SecpScalar)
    (d k kInv : SecpScalar) (token recipient amount nonce sourceChainId
    targetChainId : Nat) : SecpScalar × SecpScalar :=
  ecdsaSign xc d k kInv
    (withdrawDigest keccak token recipient amount nonce sourceChainId targetChainId)

/-! ## Concrete fixtures used by counterexamples and witnesses -/

/-- A well-formed lowercase address. -/
def addrA : String := "0x1111111111111111111111111111111111111111"

/-- A second well-formed lowercase address. -/
def addrB : String := "0x2222222222222222222222222222222222222222"

/-- A well-formed transaction hash. -/
def hashA : String :=
  "0x3333333333333333333333333333333333333333333333333333333333333333"

/-- A pending Transfer row as the Deposit handler records it:
nonce 0, sourceChainId 1, targetChainId 137. -/
def c1Transfer : Transfer :=
  { depositTxHash := "0xd1"
    withdrawTxHash := none
    sourceChainId := 1
    targetChainId := 137
    token := zeroAddress
    sender := "0xs"
    recipient := "0xr"
    amount := 5
    nonce := 0
    depositBlock := 10
    withdrawBlock := none
    depositTime := 100
    withdrawTime := none
    status := "pending" }

/-- Indexer store holding exactly the deposit transfer above. -/
def c1DB : IndexerDB := { events := [], transfers := [c1Transfer] }

/-- The Withdraw event matching that transfer by (nonce, sourceChainId)
= (0, 1), observed on the target chain 137. -/
def c1Withdraw : IWithdrawEv :=
  { txHash := "0xw1"
    logIndex := 0
    blockNumber := 20
    blockHash := "0xbh"
    timestamp := 200
    token := zeroAddress
    recipient := "0xr"
    amount := 5
    nonce := 0
    sourceChainId := 1 }

/-- C1: the spec says the Withdraw handler finds the matching deposit
Transfer by (nonce, sourceChainId) and completes it whenever it exists.
The code's findMatchingDeposit forwards the literal 0 as the
targetChainId argument of getTransferByNonce, so the deposit Transfer
(nonce 0, sourceChainId 1, targetChainId 137) - which the
(nonce, sourceChainId) key does locate - is never found, and processing
the matching Withdraw leaves the Transfer pending and uncorrelated. -/
theorem thm_C1_withdraw_match_misses_deposit :
    getTransferByNonce c1DB 0 1 137 = some c1Transfer ∧
    findMatchingDeposit c1DB 0 1 = [] ∧
    transferFor (processWithdrawEvent c1DB 137 c1Withdraw) "0xd1" = some c1Transfer := by
  decide

/-- A window's decoded logs, ascending by (blockNumber, logIndex): a
Withdraw in block 10 before a Deposit in block 20. -/
def c4Logs : List LogRec := [⟨10, 0, false⟩, ⟨20, 0, true⟩]

/-- C4 counterexample: the window's logs are ascending, but the
dispatch order places the block-20 Deposit before the block-10
Withdraw, so dispatch is not in ascending (blockNumber, logIndex) order
and the earlier-block Withdraw is dispatched after the later-block
Deposit. -/
theorem thm_C4_dispatch_order_counterexample :
    List.Chain' logOrdered c4Logs ∧
    dispatchSequence c4Logs = [⟨20, 0, true⟩, ⟨10, 0, false⟩] ∧
    ¬ List.Chain' logOrdered (dispatchSequence c4Logs) := by
  refine ⟨?_, by decide, ?_⟩
  · simp only [c4Logs, List.chain'_cons, List.chain'_singleton, and_true]
    decide
  · intro h
    rw [show dispatchSequence c4Logs = [⟨20, 0, true⟩, ⟨10, 0, false⟩] from by decide] at h
    obtain ⟨hxy, -⟩ := List.chain'_cons.mp h
    exact absurd hxy (by decide)

/-- C4 (amended): within one window the watcher dispatches all Deposit
logs (in ascending order) and then all Withdraw logs (in ascending
order); consecutive dispatches are therefore either in ascending
(blockNumber, logIndex) order or a Deposit followed by a Withdraw. -/
theorem thm_C4_dispatch_deposits_then_withdraws (logs : List LogRec)
    (h : List.Pairwise logOrdered logs) :
    List.Pairwise
      (fun a b => logOrdered a b ∨ (a.isDeposit = true ∧ b.isDeposit = false))
      (dispatchSequence logs) := by
  unfold dispatchSequence
  rw [List.pairwise_append]
  refine ⟨(h.filter _).imp Or.inl, (h.filter _).imp Or.inl, ?_⟩
  intro a ha b hb
  right
  refine ⟨(List.mem_filter.1 ha).2, ?_⟩
  have hb2 := (List.mem_filter.1 hb).2
  simpa using hb2

/-- C4 witness: the amended dispatch-order property at the concrete
window above. -/
theorem thm_C4_witness :
    List.Pairwise
      (fun a b => logOrdered a b ∨ (a.isDeposit = true ∧ b.isDeposit = false))
      (dispatchSequence c4Logs) :=
  thm_C4_dispatch_deposits_then_withdraws c4Logs (by decide)

/-- C8 counterexample: at estimateGas = 101 with the default multiplier
1.2, the code computes gasLimit = (101 * 120) / 100 = 121 by BigInt
floor division, while ceil(101 * 1.2) = 122; the claimed ceiling is not
what is submitted. -/
theorem thm_C8_gas_limit_counterexample :
    (executeWithdrawalGasFields 101 (some 5) 100).1 = 121 ∧
    ⌈(101 : ℚ) * (120 / 100)⌉ = 122 ∧ (121 : ℤ) ≠ 122 := by
  refine ⟨by decide, ?_, by decide⟩
  rw [Int.ceil_eq_iff]
  constructor <;> norm_num

/-- C8 (amended): every withdraw submission uses
gasLimit = floor(estimateGas * 120 / 100) (the floor, not the ceiling,
of the buffered estimate; 120 = floor(1.2 * 100)) and
gasPrice = min(feeData.gasPrice, maxGasPriceGwei in wei), the cap only
ever lowering the price. -/
theorem thm_C8_gas_fields (estimated : ℕ) (feeGasPrice : Option ℕ) (maxGwei : ℕ) :
    (executeWithdrawalGasFields estimated feeGasPrice maxGwei).1 =
      ⌊((estimated : ℚ) * 120) / 100⌋₊ ∧
    (executeWithdrawalGasFields estimated feeGasPrice maxGwei).2 =
      min (feeGasPrice.getD 0) (maxGasPriceWei maxGwei) := by
  constructor
  · have hcast : ((estimated : ℚ) * 120) / 100 =
        ((estimated * 120 : ℕ) : ℚ) / ((100 : ℕ) : ℚ) := by
      push_cast
      ring
    rw [hcast, Nat.floor_div_nat]
    rfl
  · show getGasPriceModel feeGasPrice maxGwei = _
    unfold getGasPriceModel
    rcases le_or_lt (feeGasPrice.getD 0) (maxGasPriceWei maxGwei) with h | h
    · rw [if_neg (by omega), min_eq_left h]
    · rw [if_pos h, min_eq_right (le_of_lt h)]

lemma foldlKeep {α β : Type} (l : List α) (b : β) :
    l.foldl (fun acc _ => acc) b = b := by
  induction l generalizing b with
  | nil => rfl
  | cons a t ih => exact ih b

/-- A deposit log for the indexer whose dispatch will fail. -/
def c5Dep : IDepositEv :=
  { txHash := "0xd5"
    logIndex := 0
    blockNumber := 5
    blockHash := "0xbh"
    timestamp := 50
    token := zeroAddress
    sender := "0xs"
    recipient := "0xr"
    amount := 1
    nonce := 0
    targetChainId := 2 }

/-- C5 counterexample: a window (cursor 0, head 10) holding one deposit
log whose dispatch fails with a store failure (the processor batch
catches it and continues).  The store stays empty - the event was never
recorded - yet the persisted cursor advances from 0 to 10, so the
window is not retried and the event is permanently lost, contradicting
the claimed abort-without-advancing behavior. -/
theorem thm_C5_failed_dispatch_counterexample :
    indexerStep false (fun _ => true) (fun _ => false) ⟨[], []⟩ 0 10 1000 1
      [c5Dep] [] = (⟨[], []⟩, 10) ∧ (10 : ℕ) ≠ 0 := by
  constructor
  · decide
  · decide

/-- C5 (amended): a store failure while dispatching a single event is
caught inside the batch loop: the remaining events are still processed
and the cursor still advances to toBlock, so the failed event is
skipped permanently instead of retried.  Only a failure of the log
query itself aborts the window, leaving both the store and the cursor
unchanged so that the window is retried next tick. -/
theorem thm_C5_dispatch_failure_semantics (failsD : IDepositEv → Bool)
    (failsW : IWithdrawEv → Bool) (db : IndexerDB)
    (cursor head batchSize chainId : ℕ) (dlogs : List IDepositEv)
    (wlogs : List IWithdrawEv)
    (hwin : cursor + 1 ≤ min (cursor + 1 + batchSize) head) :
    (indexerStep false failsD failsW db cursor head batchSize chainId dlogs wlogs).2 =
      min (cursor + 1 + batchSize) head ∧
    indexerStep false (fun _ => true) (fun _ => true) db cursor head batchSize chainId
      dlogs wlogs = (db, min (cursor + 1 + batchSize) head) ∧
    indexerStep true failsD failsW db cursor head batchSize chainId dlogs wlogs =
      (db, cursor) := by
  have hnot : ¬ (cursor + 1 > min (cursor + 1 + batchSize) head) := by omega
  refine ⟨?_, ?_, ?_⟩
  · simp only [indexerStep, if_neg hnot]
    rfl
  · simp [indexerStep, if_neg hnot, foldlKeep]
    omega
  · simp only [indexerStep, if_neg hnot]
    rfl

/-- C5 witness: the amended semantics at a concrete window
(cursor 0, head 10, batchSize 1000). -/
theorem thm_C5_witness :
    (indexerStep false (fun _ => true) (fun _ => false) ⟨[], []⟩ 0 10 1000 1
      [c5Dep] []).2 = min (0 + 1 + 1000) 10 ∧
    indexerStep false (fun _ => true) (fun _ => true) ⟨[], []⟩ 0 10 1000 1
      [c5Dep] [] = (⟨[], []⟩, min (0 + 1 + 1000) 10) ∧
    indexerStep true (fun _ => true) (fun _ => false) ⟨[], []⟩ 0 10 1000 1
      [c5Dep] [] = (⟨[], []⟩, 0) :=
  thm_C5_dispatch_failure_semantics (fun _ => true) (fun _ => false) ⟨[], []⟩ 0 10
    1000 1 [c5Dep] [] (by decide)

/-- The valid deposit at block 95 that has only 5 confirmations when
the head is 100 (minConfirmations 12). -/
def c6Deposit : RDepositEv :=
  { txHash := hashA
    token := zeroAddress
    sender := addrA
    recipient := addrB
    amount := 1
    nonce := 0
    targetChainId := 137
    blockNumber := 95 }

/-- A target environment in which a withdrawal would succeed. -/
def c6Env : TargetEnv :=
  { configured := true
    isProcessed := false
    hasBalance := true
    execResult := some "0xdead" }

/-- C6 counterexample: with head = 100 and minConfirmations = 12, the
relayer's window scans through block 100 - past head − minConfirmations
= 88 - and presents the valid block-95 deposit, which fails the
per-event confirmation gate and is skipped without persisting anything,
while the cursor still advances to 100 (past the deposit).  The watcher
does not refuse to scan the unconfirmed range, and the skipped deposit
is not re-presented once confirmations accrue. -/
theorem thm_C6_scan_past_confirmation_depth_counterexample :
    relayerStep (fun _ => c6Env) 100 12 1 ⟨[]⟩ 0 [c6Deposit] = (⟨[]⟩, 100) ∧
    hasEnoughConfirmations 100 c6Deposit.blockNumber 12 = false ∧
    validateDepositEvent c6Deposit = true ∧
    (100 : ℕ) - 12 < 100 ∧ c6Deposit.blockNumber < 100 := by
  refine ⟨by decide, by decide, by decide, by decide, by decide⟩

/-- C6 (amended): the relayer watcher scans up to the current head with
no minConfirmations holdback; a deposit presented inside the window
that lacks minConfirmations is skipped without any persistent state and
the in-memory cursor still advances to toBlock, at or past the
deposit's block, so the deposit is not re-presented during this run. -/
theorem thm_C6_unconfirmed_deposit_skipped (envOf : RDepositEv → TargetEnv)
    (head minConfirmations sourceChainId : ℕ) (db : RelayerDB) (cursor : ℕ)
    (ev : RDepositEv)
    (hlo : cursor + 1 ≤ ev.blockNumber)
    (hhi : ev.blockNumber ≤ min (cursor + 1 + 1000) head)
    (hconf : hasEnoughConfirmations head ev.blockNumber minConfirmations = false) :
    relayerStep envOf head minConfirmations sourceChainId db cursor [ev] =
      (db, min (cursor + 1 + 1000) head) ∧
    ev.blockNumber ≤
      (relayerStep envOf head minConfirmations sourceChainId db cursor [ev]).2 := by
  have hnot : ¬ (cursor + 1 > min (cursor + 1 + 1000) head) := by omega
  have hfilter : (decide (cursor + 1 ≤ ev.blockNumber) &&
      decide (ev.blockNumber ≤ min (cursor + 1 + 1000) head)) = true := by
    simp [hlo, hhi]
  have hstep : relayerStep envOf head minConfirmations sourceChainId db cursor [ev] =
      (db, min (cursor + 1 + 1000) head) := by
    simp only [relayerStep, if_neg hnot, List.filter, hfilter, List.filter_nil,
      List.foldl_cons, List.foldl_nil]
    cases hv : validateDepositEvent ev with
    | false => simp [processDepositR, hv]
    | true => simp [processDepositR, hv, hconf]
  refine ⟨hstep, ?_⟩
  rw [hstep]
  exact hhi

/-- C6 witness: the amended skip behavior at the concrete unconfirmed
deposit (cursor 0, head 100, minConfirmations 12, deposit block 95). -/
theorem thm_C6_witness :
    relayerStep (fun _ => c6Env) 100 12 1 ⟨[]⟩ 0 [c6Deposit] =
      (⟨[]⟩, min (0 + 1 + 1000) 100) ∧
    c6Deposit.blockNumber ≤
      (relayerStep (fun _ => c6Env) 100 12 1 ⟨[]⟩ 0 [c6Deposit]).2 :=
  thm_C6_unconfirmed_deposit_skipped (fun _ => c6Env) 100 12 1 ⟨[]⟩ 0 c6Deposit
    (by decide) (by decide) (by decide)

lemma mem_le_foldrMax {x : ℕ} : ∀ {l : List ℕ}, x ∈ l → x ≤ l.foldr max 0 := by
  intro l hx
  induction l with
  | nil => cases hx
  | cons a t ih =>
    rcases List.mem_cons.1 hx with rfl | h
    · exact le_max_left _ _
    · exact le_trans (ih h) (le_max_right _ _)

lemma foldrMax_eq_zero_or_mem : ∀ l : List ℕ, l.foldr max 0 = 0 ∨ l.foldr max 0 ∈ l := by
  intro l
  induction l with
  | nil => exact Or.inl rfl
  | cons a t ih =>
    simp only [List.foldr]
    rcases le_total a (t.foldr max 0) with h | h
    · rw [max_eq_right h]
      rcases ih with h0 | hm
      · exact Or.inl h0
      · exact Or.inr (List.mem_cons_of_mem _ hm)
    · rw [max_eq_left h]
      exact Or.inr (List.mem_cons_self _ _)

/-- C10: on initialization the relayer's cursor for a chain is
getLastProcessedBlock: an upper bound of the blockNumbers of the
chain's stored BridgeTransaction rows, equal to 0 when the chain has
none and attained by some row otherwise.  During a run, a window
containing no deposit events leaves the store untouched while the
in-memory cursor advances to toBlock; the store-derived restart cursor
is unchanged, so the same blocks are scanned again after a restart. -/
theorem thm_C10_restart_cursor (db : RelayerDB) (chainId : ℕ)
    (envOf : RDepositEv → TargetEnv) (head minConfirmations cursor : ℕ)
    (logs : List RDepositEv)
    (hwin : cursor + 1 ≤ min (cursor + 1 + 1000) head)
    (hempty : logs.filter (fun e => decide (cursor + 1 ≤ e.blockNumber) &&
      decide (e.blockNumber ≤ min (cursor + 1 + 1000) head)) = []) :
    (∀ t ∈ db.txs, t.sourceChain = chainId →
      t.blockNumber ≤ initialCursor db chainId) ∧
    (db.txs.filter (fun t => t.sourceChain == chainId) = [] →
      initialCursor db chainId = 0) ∧
    (initialCursor db chainId ≠ 0 →
      ∃ t ∈ db.txs, t.sourceChain = chainId ∧
        t.blockNumber = initialCursor db chainId) ∧
    relayerStep envOf head minConfirmations chainId db cursor logs =
      (db, min (cursor + 1 + 1000) head) ∧
    initialCursor
      (relayerStep envOf head minConfirmations chainId db cursor logs).1 chainId =
      initialCursor db chainId := by
  have hnot : ¬ (cursor + 1 > min (cursor + 1 + 1000) head) := by omega
  have hstep : relayerStep envOf head minConfirmations chainId db cursor logs =
      (db, min (cursor + 1 + 1000) head) := by
    simp only [relayerStep, if_neg hnot, hempty, List.foldl_nil]
  refine ⟨?_, ?_, ?_, hstep, by rw [hstep]⟩
  · intro t ht hc
    apply mem_le_foldrMax
    exact List.mem_map.2 ⟨t, List.mem_filter.2 ⟨ht, by simp [hc]⟩, rfl⟩
  · intro hfil
    unfold initialCursor getLastProcessedBlock
    rw [hfil]
    rfl
  · intro hne
    rcases foldrMax_eq_zero_or_mem
        ((db.txs.filter (fun t => t.sourceChain == chainId)).map
          (fun t => t.blockNumber)) with h0 | hm
    · exact absurd h0 hne
    · rcases List.mem_map.1 hm with ⟨t, htf, hteq⟩
      rcases List.mem_filter.1 htf with ⟨ht, hp⟩
      exact ⟨t, ht, by simpa using hp, hteq⟩

/-- Two completed rows on chain 1 (blocks 7 and 12). -/
def c10DB : RelayerDB :=
  { txs :=
      [{ txHash := "0xa1"
         sourceChain := 1
         targetChain := 137
         token := zeroAddress
         sender := "0xs"
         recipient := "0xr"
         amount := 5
         nonce := 0
         blockNumber := 7
         status := "completed"
         targetTxHash := some "0xt1"
         error := none },
       { txHash := "0xa2"
         sourceChain := 1
         targetChain := 137
         token := zeroAddress
         sender := "0xs"
         recipient := "0xr"
         amount := 6
         nonce := 1
         blockNumber := 12
         status := "completed"
         targetTxHash := some "0xt2"
         error := none }] }

/-- C10 witness: the restart-cursor facts at a concrete store (two
chain-1 rows, highest block 12) and a concrete empty window
(cursor 20, head 50). -/
theorem thm_C10_witness :
    (∀ t ∈ c10DB.txs, t.sourceChain = 1 → t.blockNumber ≤ initialCursor c10DB 1) ∧
    (c10DB.txs.filter (fun t => t.sourceChain == 1) = [] →
      initialCursor c10DB 1 = 0) ∧
    (initialCursor c10DB 1 ≠ 0 →
      ∃ t ∈ c10DB.txs, t.sourceChain = 1 ∧ t.blockNumber = initialCursor c10DB 1) ∧
    relayerStep (fun _ => ⟨true, false, true, none⟩) 50 12 1 c10DB 20 [] =
      (c10DB, min (20 + 1 + 1000) 50) ∧
    initialCursor
      (relayerStep (fun _ => ⟨true, false, true, none⟩) 50 12 1 c10DB 20 []).1 1 =
      initialCursor c10DB 1 :=
  thm_C10_restart_cursor c10DB 1 (fun _ => ⟨true, false, true, none⟩) 50 12 20 []
    (by decide) (by decide)

lemma eventExists_createBridgeEvent_self (db : IndexerDB) (e : BridgeEvent) :
    eventExists (createBridgeEvent db e) e.txHash e.logIndex = true := by
  simp [eventExists, createBridgeEvent]

lemma createOrUpdateTransfer_fresh (db : IndexerDB) (d : TransferData)
    (h : transferFor db d.depositTxHash = none) :
    createOrUpdateTransfer db d = { db with transfers := d.toTransfer :: db.transfers } := by
  unfold createOrUpdateTransfer
  rw [if_neg]
  intro hany
  rcases List.any_eq_true.1 hany with ⟨t, ht, hp⟩
  exact (List.find?_eq_none.1 h t ht) hp

lemma transferFor_createOrUpdateTransfer_fresh (db : IndexerDB) (d : TransferData)
    (h : transferFor db d.depositTxHash = none) :
    transferFor (createOrUpdateTransfer db d) d.depositTxHash = some d.toTransfer := by
  rw [createOrUpdateTransfer_fresh db d h]
  unfold transferFor
  exact List.find?_cons_of_pos _ (by simp [TransferData.toTransfer])

/-- The Withdraw event (nonce 7, sourceChainId 1) observed on chain 137
before its deposit. -/
def c2With : IWithdrawEv :=
  { txHash := "0xw2"
    logIndex := 0
    blockNumber := 30
    blockHash := "0xbh"
    timestamp := 300
    token := zeroAddress
    recipient := "0xr"
    amount := 9
    nonce := 7
    sourceChainId := 1 }

/-- The matching Deposit event (nonce 7 on chain 1, target 137) that
arrives after the withdraw. -/
def c2Dep : IDepositEv :=
  { txHash := "0xd2"
    logIndex := 0
    blockNumber := 3
    blockHash := "0xbh"
    timestamp := 33
    token := zeroAddress
    sender := "0xs"
    recipient := "0xr"
    amount := 9
    nonce := 7
    targetChainId := 137 }

/-- Store after the early withdraw was indexed. -/
def c2DB1 : IndexerDB := processWithdrawEvent ⟨[], []⟩ 137 c2With

/-- Store after the late deposit was indexed on top of it. -/
def c2DB2 : IndexerDB := processDepositEvent c2DB1 1 c2Dep

/-- C2 counterexample: the Withdraw with (nonce, sourceChainId) =
(7, 1) is already recorded as a BridgeEvent when the matching Deposit
arrives, yet the Deposit handler performs no prior-withdrawal lookup:
the Transfer it inserts is pending with all withdraw fields null, not
completed as claimed. -/
theorem thm_C2_deposit_ignores_prior_withdraw :
    eventExists c2DB1 "0xw2" 0 = true ∧
    transferFor c2DB2 "0xd2" = some
      { depositTxHash := "0xd2"
        withdrawTxHash := none
        sourceChainId := 1
        targetChainId := 137
        token := zeroAddress
        sender := "0xs"
        recipient := "0xr"
        amount := 9
        nonce := 7
        depositBlock := 3
        withdrawBlock := none
        depositTime := 33
        withdrawTime := none
        status := "pending" } := by
  constructor
  · decide
  · decide

/-- C2 (amended): the Deposit handler checks nothing about prior
withdrawals: for every store state - in particular one already holding
the matching Withdraw BridgeEvent - indexing a fresh deposit writes the
Transfer with status pending and null withdrawTxHash, withdrawBlock and
withdrawTime. -/
theorem thm_C2_deposit_inserts_pending (db : IndexerDB) (chainId : ℕ)
    (ev : IDepositEv)
    (hde : eventExists db ev.txHash ev.logIndex = false)
    (htr : transferFor db ev.txHash = none) :
    transferFor (processDepositEvent db chainId ev) ev.txHash =
      some ((ev.toTransferData chainId).toTransfer) ∧
    ((ev.toTransferData chainId).toTransfer).status = "pending" ∧
    ((ev.toTransferData chainId).toTransfer).withdrawTxHash = none ∧
    ((ev.toTransferData chainId).toTransfer).withdrawBlock = none ∧
    ((ev.toTransferData chainId).toTransfer).withdrawTime = none := by
  refine ⟨?_, rfl, rfl, rfl, rfl⟩
  unfold processDepositEvent processDepositCrash
  rw [if_neg (by simp [hde])]
  show transferFor (createOrUpdateTransfer
    (createBridgeEvent db (ev.toBridgeEvent chainId)) (ev.toTransferData chainId))
    ev.txHash = _
  exact transferFor_createOrUpdateTransfer_fresh _ _ htr

/-- C2 witness: the amended insertion behavior at the concrete late
deposit, over the store already holding its withdraw. -/
theorem thm_C2_witness :
    transferFor (processDepositEvent c2DB1 1 c2Dep) c2Dep.txHash =
      some ((c2Dep.toTransferData 1).toTransfer) ∧
    ((c2Dep.toTransferData 1).toTransfer).status = "pending" ∧
    ((c2Dep.toTransferData 1).toTransfer).withdrawTxHash = none ∧
    ((c2Dep.toTransferData 1).toTransfer).withdrawBlock = none ∧
    ((c2Dep.toTransferData 1).toTransfer).withdrawTime = none :=
  thm_C2_deposit_inserts_pending c2DB1 1 c2Dep (by decide) (by decide)

/-- A fresh deposit event for the atomicity claim. -/
def c3Dep : IDepositEv :=
  { txHash := "0xd3"
    logIndex := 0
    blockNumber := 8
    blockHash := "0xbh"
    timestamp := 88
    token := zeroAddress
    sender := "0xs"
    recipient := "0xr"
    amount := 4
    nonce := 2
    targetChainId := 137 }

/-- C3 counterexample: the deposit handler's BridgeEvent insert and
Transfer upsert are separate store writes; the execution that crashes
after the first write leaves the BridgeEvent recorded with no Transfer,
contradicting the claimed single-transaction atomicity. -/
theorem thm_C3_crash_between_writes_counterexample :
    eventExists (processDepositCrash ⟨[], []⟩ 1 c3Dep 1) "0xd3" 0 = true ∧
    transferFor (processDepositCrash ⟨[], []⟩ 1 c3Dep 1) "0xd3" = none := by
  constructor
  · decide
  · decide

/-- C3 (amended): the two writes are separate store operations, not one
transaction.  A crash-free run records both the BridgeEvent and the
Transfer; the run that crashes between the two writes records the
BridgeEvent without the Transfer, and because re-delivery dedups on the
recorded BridgeEvent, reprocessing the event afterwards is a no-op and
never repairs the missing Transfer. -/
theorem thm_C3_writes_not_atomic (db : IndexerDB) (chainId : ℕ) (ev : IDepositEv)
    (hde : eventExists db ev.txHash ev.logIndex = false)
    (htr : transferFor db ev.txHash = none) :
    eventExists (processDepositCrash db chainId ev 1) ev.txHash ev.logIndex = true ∧
    transferFor (processDepositCrash db chainId ev 1) ev.txHash = none ∧
    processDepositEvent (processDepositCrash db chainId ev 1) chainId ev =
      processDepositCrash db chainId ev 1 ∧
    eventExists (processDepositEvent db chainId ev) ev.txHash ev.logIndex = true ∧
    transferFor (processDepositEvent db chainId ev) ev.txHash =
      some ((ev.toTransferData chainId).toTransfer) := by
  have hcrash : processDepositCrash db chainId ev 1 =
      createBridgeEvent db (ev.toBridgeEvent chainId) := by
    unfold processDepositCrash
    rw [if_neg (by simp [hde])]
    rfl
  have hev : eventExists (processDepositCrash db chainId ev 1) ev.txHash ev.logIndex =
      true := by
    rw [hcrash]
    exact eventExists_createBridgeEvent_self db (ev.toBridgeEvent chainId)
  refine ⟨hev, ?_, ?_, ?_, ?_⟩
  · rw [hcrash]
    exact htr
  · show processDepositCrash (processDepositCrash db chainId ev 1) chainId ev 2 =
      processDepositCrash db chainId ev 1
    generalize hX : processDepositCrash db chainId ev 1 = X at hev ⊢
    unfold processDepositCrash
    rw [if_pos hev]
  · unfold processDepositEvent processDepositCrash
    rw [if_neg (by simp [hde])]
    show eventExists (createOrUpdateTransfer
      (createBridgeEvent db (ev.toBridgeEvent chainId)) (ev.toTransferData chainId))
      ev.txHash ev.logIndex = true
    have : eventExists (createOrUpdateTransfer
        (createBridgeEvent db (ev.toBridgeEvent chainId)) (ev.toTransferData chainId))
        ev.txHash ev.logIndex =
        eventExists (createBridgeEvent db (ev.toBridgeEvent chainId))
          ev.txHash ev.logIndex := by
      unfold createOrUpdateTransfer eventExists
      split <;> rfl
    rw [this]
    exact eventExists_createBridgeEvent_self db (ev.toBridgeEvent chainId)
  · unfold processDepositEvent processDepositCrash
    rw [if_neg (by simp [hde])]
    show transferFor (createOrUpdateTransfer
      (createBridgeEvent db (ev.toBridgeEvent chainId)) (ev.toTransferData chainId))
      ev.txHash = _
    exact transferFor_createOrUpdateTransfer_fresh _ _ htr

/-- C3 witness: the non-atomicity facts at the concrete fresh deposit
over the empty store. -/
theorem thm_C3_witness :
    eventExists (processDepositCrash ⟨[], []⟩ 1 c3Dep 1) c3Dep.txHash
      c3Dep.logIndex = true ∧
    transferFor (processDepositCrash ⟨[], []⟩ 1 c3Dep 1) c3Dep.txHash = none ∧
    processDepositEvent (processDepositCrash ⟨[], []⟩ 1 c3Dep 1) 1 c3Dep =
      processDepositCrash ⟨[], []⟩ 1 c3Dep 1 ∧
    eventExists (processDepositEvent ⟨[], []⟩ 1 c3Dep) c3Dep.txHash
      c3Dep.logIndex = true ∧
    transferFor (processDepositEvent ⟨[], []⟩ 1 c3Dep) c3Dep.txHash =
      some ((c3Dep.toTransferData 1).toTransfer) :=
  thm_C3_writes_not_atomic ⟨[], []⟩ 1 c3Dep (by decide) (by decide)

lemma statusOf_eq_txFor (db : RelayerDB) (tx : String) :
    statusOf db tx = (txFor db tx).map (fun t => t.status) := rfl

lemma txFor_map_keyed (f : BridgeTx → BridgeTx) (hf : ∀ t, (f t).txHash = t.txHash)
    (l : List BridgeTx) (tx : String) :
    (List.map (fun t => if t.txHash == tx then f t else t) l).find?
        (fun t => t.txHash == tx) =
      (l.find? (fun t => t.txHash == tx)).map f := by
  induction l with
  | nil => rfl
  | cons a t ih =>
    by_cases h : (a.txHash == tx) = true
    · rw [List.map_cons, if_pos h,
        @List.find?_cons_of_pos _ (fun t => t.txHash == tx) (f a) _
          (show ((f a).txHash == tx) = true by rw [hf a]; exact h),
        @List.find?_cons_of_pos _ (fun t => t.txHash == tx) a _ h]
      rfl
    · rw [List.map_cons, if_neg h,
        @List.find?_cons_of_neg _ (fun t => t.txHash == tx) a _ h,
        @List.find?_cons_of_neg _ (fun t => t.txHash == tx) a _ h, ih]

lemma txFor_updateTransactionStatus (db : RelayerDB) (tx st : String) (o : Option String) :
    txFor (updateTransactionStatus db tx st o) tx =
      (txFor db tx).map (fun t =>
        { t with
          status := st
          targetTxHash := match o with
            | some v => if v == "" then t.targetTxHash else some v
            | none => t.targetTxHash }) := by
  unfold txFor updateTransactionStatus
  exact txFor_map_keyed
    (fun t =>
      { t with
        status := st
        targetTxHash := match o with
          | some v => if v == "" then t.targetTxHash else some v
          | none => t.targetTxHash })
    (fun t => rfl) db.txs tx

lemma statusOf_updateTransactionStatus (db : RelayerDB) (tx st : String)
    (o : Option String) (h : (txFor db tx).isSome = true) :
    statusOf (updateTransactionStatus db tx st o) tx = some st := by
  obtain ⟨t, ht⟩ := Option.isSome_iff_exists.mp h
  rw [statusOf_eq_txFor, txFor_updateTransactionStatus, ht]
  rfl

lemma statusOf_markTransactionAsFailed (db : RelayerDB) (tx err : String)
    (h : (txFor db tx).isSome = true) :
    statusOf (markTransactionAsFailed db tx err) tx = some "failed" := by
  obtain ⟨t, ht⟩ := Option.isSome_iff_exists.mp h
  have hmap : txFor (markTransactionAsFailed db tx err) tx =
      (txFor db tx).map (fun t => { t with status := "failed", error := some err }) := by
    unfold txFor markTransactionAsFailed
    exact txFor_map_keyed (fun t => { t with status := "failed", error := some err })
      (fun t => rfl) db.txs tx
  rw [statusOf_eq_txFor, hmap, ht]
  rfl

lemma txFor_getOrCreateTransaction_fresh (db : RelayerDB) (tx : String)
    (srcChain tgtChain : ℕ) (token senderAddr recipientAddr : String)
    (amount nonce blockNumber : ℕ) (h : txFor db tx = none) :
    txFor (getOrCreateTransaction db tx srcChain tgtChain token senderAddr
        recipientAddr amount nonce blockNumber) tx =
      some
        { txHash := tx
          sourceChain := srcChain
          targetChain := tgtChain
          token := token
          sender := senderAddr
          recipient := recipientAddr
          amount := amount
          nonce := nonce
          blockNumber := blockNumber
          status := "pending"
          targetTxHash := none
          error := none } := by
  unfold getOrCreateTransaction
  rw [if_neg]
  · unfold txFor
    exact List.find?_cons_of_pos _ (by simp)
  · intro hany
    rcases List.any_eq_true.1 hany with ⟨t, ht, hp⟩
    exact (List.find?_eq_none.1 h t ht) hp

lemma statusOf_withdrawalOutcome (env : TargetEnv) (sourceChainId : ℕ)
    (ev : RDepositEv) (db2 : RelayerDB) (h : (txFor db2 ev.txHash).isSome = true) :
    statusOf (withdrawalOutcome env sourceChainId ev db2) ev.txHash = some "completed" ∨
    statusOf (withdrawalOutcome env sourceChainId ev db2) ev.txHash = some "failed" := by
  unfold withdrawalOutcome
  split_ifs with h1 h2 h3
  · exact Or.inr (statusOf_markTransactionAsFailed db2 _ _ h)
  · exact Or.inl (statusOf_updateTransactionStatus db2 _ _ _ h)
  · exact Or.inr (statusOf_markTransactionAsFailed db2 _ _ h)
  · cases env.execResult with
    | some v => exact Or.inl (statusOf_updateTransactionStatus db2 _ _ _ h)
    | none => exact Or.inr (statusOf_markTransactionAsFailed db2 _ _ h)

/-- Rank of a BridgeTransaction status along the claimed progression
pending → relaying → terminal. -/
def statusRank : Option String → ℕ
  | none => 0
  | some s =>
    if s == "pending" then 1
    else if s == "relaying" then 2
    else if s == "completed" then 3
    else if s == "failed" then 3
    else 0

/-- The valid, confirmed deposit used for the status-machine claims. -/
def c7Dep : RDepositEv :=
  { txHash := hashA
    token := zeroAddress
    sender := addrA
    recipient := addrB
    amount := 1
    nonce := 0
    targetChainId := 137
    blockNumber := 5 }

/-- First delivery: target configured, not yet processed on chain,
liquidity present, submission succeeds. -/
def c7Env1 : TargetEnv :=
  { configured := true
    isProcessed := false
    hasBalance := true
    execResult := some "0xe7" }

/-- Second delivery: identical but the target chain now reports the
message as processed. -/
def c7Env2 : TargetEnv :=
  { configured := true
    isProcessed := true
    hasBalance := true
    execResult := some "0xe7" }

/-- Store after the first, fully successful processing of the deposit. -/
def c7DB1 : RelayerDB := processDepositR c7Env1 100 12 1 ⟨[]⟩ c7Dep

/-- C7 counterexample: after a deposit is fully processed its
transaction is completed, but re-delivering the same deposit event runs
markTransactionAsRelaying unconditionally, so the third store state of
the second processing shows the row back at relaying - the status
reverses out of the terminal completed state. -/
theorem thm_C7_status_reversal_counterexample :
    statusOf c7DB1 c7Dep.txHash = some "completed" ∧
    statusOf ((processDepositStatesR c7Env2 100 12 1 c7DB1 c7Dep).getD 2 c7DB1)
      c7Dep.txHash = some "relaying" := by
  constructor
  · decide
  · decide

/-- C7 (amended): updateTransactionStatus applies any requested status
with no monotonicity guard, so re-delivery of a completed deposit
resets its row to relaying (see the counterexample); monotonicity does
hold for the first delivery: starting from a store with no row for the
deposit, the statuses along the processing trace never decrease in the
pending → relaying → {completed, failed} rank. -/
theorem thm_C7_first_delivery_monotone (env : TargetEnv)
    (head minConfirmations sourceChainId : ℕ) (db : RelayerDB) (ev : RDepositEv)
    (hfresh : txFor db ev.txHash = none) :
    List.Chain'
      (fun a b => statusRank (statusOf a ev.txHash) ≤ statusRank (statusOf b ev.txHash))
      (processDepositStatesR env head minConfirmations sourceChainId db ev) := by
  have hdb0 : statusOf db ev.txHash = none := by
    rw [statusOf_eq_txFor, hfresh]
    rfl
  simp only [processDepositStatesR]
  split_ifs with h1 h2 h3
  · exact List.chain'_singleton db
  · exact List.chain'_singleton db
  · refine List.chain'_cons.mpr ⟨?_, List.chain'_singleton _⟩
    rw [hdb0]
    exact Nat.zero_le _
  · have hpend := txFor_getOrCreateTransaction_fresh db ev.txHash sourceChainId
      ev.targetChainId ev.token ev.sender ev.recipient ev.amount ev.nonce
      ev.blockNumber hfresh
    have hpendSome : (txFor (getOrCreateTransaction db ev.txHash sourceChainId
        ev.targetChainId ev.token ev.sender ev.recipient ev.amount ev.nonce
        ev.blockNumber) ev.txHash).isSome = true := by
      rw [hpend]
      rfl
    have hrel : statusOf (markTransactionAsRelaying
        (getOrCreateTransaction db ev.txHash sourceChainId ev.targetChainId ev.token
          ev.sender ev.recipient ev.amount ev.nonce ev.blockNumber) ev.txHash)
        ev.txHash = some "relaying" :=
      statusOf_updateTransactionStatus _ _ _ _ hpendSome
    have hrelSome : (txFor (markTransactionAsRelaying
        (getOrCreateTransaction db ev.txHash sourceChainId ev.targetChainId ev.token
          ev.sender ev.recipient ev.amount ev.nonce ev.blockNumber) ev.txHash)
        ev.txHash).isSome = true := by
      unfold markTransactionAsRelaying
      rw [txFor_updateTransactionStatus, hpend]
      rfl
    have hfinal := statusOf_withdrawalOutcome env sourceChainId ev _ hrelSome
    simp only [List.chain'_cons, List.chain'_singleton, and_true]
    refine ⟨?_, ?_, ?_⟩
    · rw [hdb0]
      exact Nat.zero_le _
    · rw [statusOf_eq_txFor, hpend, hrel]
      show statusRank (some "pending") ≤ statusRank (some "relaying")
      decide
    · rw [hrel]
      rcases hfinal with hc | hc <;> rw [hc] <;> decide

/-- C7 witness: the first-delivery monotone trace at the concrete
deposit over the empty store. -/
theorem thm_C7_witness :
    List.Chain'
      (fun a b =>
        statusRank (statusOf a c7Dep.txHash) ≤ statusRank (statusOf b c7Dep.txHash))
      (processDepositStatesR c7Env1 100 12 1 ⟨[]⟩ c7Dep) :=
  thm_C7_first_delivery_monotone c7Env1 100 12 1 ⟨[]⟩ c7Dep (by decide)

lemma ecdsa_recover_sign (xc dec : SecpScalar → SecpScalar) (d k kInv rInv z : SecpScalar)
    (hk : kInv * k = 1) (hdec : dec (xc k) = k) (hr : rInv * xc k = 1) :
    ecrecoverScalar dec rInv z (ecdsaSign xc d k kInv z).1 (ecdsaSign xc d k kInv z).2 =
      d := by
  show rInv * (kInv * (z + xc k * d) * dec (xc k) - z) = d
  rw [hdec,
    show kInv * (z + xc k * d) * k = kInv * k * (z + xc k * d) from by ring, hk,
    one_mul,
    show z + xc k * d - z = xc k * d from by ring,
    ← mul_assoc, hr, one_mul]

/-- C9: for every tuple, every keccak function, every private key d,
every signing nonce k (with its inverse), and every
x-coordinate/recovery-id encoding xc that the recovery map dec inverts
at the nonce point, verifying the signature produced by signWithdrawal
over the canonical digest against the signer's address succeeds:
verify(digest, sign(digest, d), addr(d)) = true. -/
theorem thm_C9_signature_roundtrip (keccak : List ℕ → ℕ)
    (xc dec addrOf : SecpScalar → SecpScalar) (d k kInv rInv : SecpScalar)
    (token recipient amount nonce sourceChainId targetChainId : ℕ)
    (hk : kInv * k = 1)
    (hdec : dec (xc k) = k)
    (hr : rInv * xc k = 1) :
    verifyRecovered addrOf dec rInv
      (withdrawDigest keccak token recipient amount nonce sourceChainId targetChainId)
      (signWithdrawalModel keccak xc d k kInv token recipient amount nonce
        sourceChainId targetChainId).1
      (signWithdrawalModel keccak xc d k kInv token recipient amount nonce
        sourceChainId targetChainId).2
      (addrOf d) = true := by
  have hs : signWithdrawalModel keccak xc d k kInv token recipient amount nonce
      sourceChainId targetChainId =
      ecdsaSign xc d k kInv
        (withdrawDigest keccak token recipient amount nonce sourceChainId
          targetChainId) := rfl
  rw [hs]
  unfold verifyRecovered
  rw [ecdsa_recover_sign xc dec d k kInv rInv _ hk hdec hr]
  simp

/-- C9 witness: the roundtrip at a concrete tuple with the identity
point encoding, the zero keccak model, d = 2 and k = 1. -/
theorem thm_C9_witness :
    verifyRecovered id id 1
      (withdrawDigest (fun _ => 0) 1 2 3 4 5 6)
      (signWithdrawalModel (fun _ => 0) id 2 1 1 1 2 3 4 5 6).1
      (signWithdrawalModel (fun _ => 0) id 2 1 1 1 2 3 4 5 6).2
      (id 2) = true :=
  thm_C9_signature_roundtrip (fun _ => 0) id id id 2 1 1 1 1 2 3 4 5 6
    (by decide) rfl (by decide)

end TokenBridge
